import Mathlib

/-!
Shallow embedding of torchy_baselines/common/distributions.py.

Tensors of floating-point numbers are modelled over the exact reals:
a rank-1 tensor is a List of reals, a rank-2 tensor (batch m x action dim)
is a List of rows.  The default torch dtype is float32, whose machine
epsilon (torch.finfo(torch.float32).eps) is 2 ** (-23) = 1 / 8388608.
All defs follow the source line by line; defs whose doc comment starts
with Modelled from the spec embed repository code that is not part of
the provided source tree (torchy_baselines.common.preprocessing).
-/

namespace TB

/-- Machine epsilon of torch.float32 (the default dtype): 2 ^ (-23). -/
noncomputable def float32_eps : ℝ := 1 / 8388608

/-- Default value of the epsilon constructor argument of
SquashedDiagGaussianDistribution, StateDependentNoiseDistribution and
TanhBijector (1e-6 in the source). -/
noncomputable def default_epsilon : ℝ := 1 / 1000000

/- ## Action-space descriptors and the distribution factory
(distributions.py lines 535-564). -/

/-- The gym action-space variants the factory dispatches on. -/
inductive GymSpace where
| box (shape : List Nat)
| discrete (n : Nat)
| multiDiscrete (nvec : List Nat)
| multiBinary (n : Nat)
deriving DecidableEq

/-- The distribution objects the factory can return, reduced to their
constructor argument (the action dimension / number of categories). -/
inductive ProbaDist where
| diagGaussian (action_dim : Nat)
| squashedDiagGaussian (action_dim : Nat)
| categorical (n : Nat)
| stateDependentNoise (action_dim : Nat)
deriving DecidableEq

/-- Failure modes of the factory: the assert on line 551 (the spec calls
it UnsupportedShapeError) and the final raise on line 562 (the spec calls
it UnsupportedActionSpaceError). -/
inductive FactoryError where
| unsupportedShape
| unsupportedActionSpace
deriving DecidableEq

/-- Modelled from the spec: get_action_dim is imported from
torchy_baselines.common.preprocessing, which is not part of the provided
source tree.  The spec data model describes a continuous vector space as
ContinuousVector(dim); for the 1-D shapes admitted by the factory the
dimension is the product of the shape entries, i.e. the single entry. -/
def get_action_dim (shape : List Nat) : Nat := shape.prod

/-- Embedding of make_proba_distribution (lines 535-564).  The assert on
line 551 becomes the unsupportedShape error, the final raise the
unsupportedActionSpace error.  dist_kwargs only forwards constructor
keyword arguments and is dropped from the model. -/
def make_proba_distribution (action_space : GymSpace) (use_sde : Bool) :
    Except FactoryError ProbaDist :=
  match action_space with
  | .box shape =>
    if shape.length = 1 then
      if use_sde then .ok (.stateDependentNoise (get_action_dim shape))
      else .ok (.diagGaussian (get_action_dim shape))
    else .error .unsupportedShape
  | .discrete n => .ok (.categorical n)
  | .multiDiscrete _ => .error .unsupportedActionSpace
  | .multiBinary _ => .error .unsupportedActionSpace

/- ## TanhBijector (lines 491-532). -/

/-- clamp with a lower and an upper bound, as in torch clamp. -/
noncomputable def clamp (lo hi x : ℝ) : ℝ := max lo (min x hi)

/-- TanhBijector.forward (line 505): tanh. -/
noncomputable def TanhBijector.forward (x : ℝ) : ℝ := Real.tanh x

/-- TanhBijector.atanh (lines 508-516): the numerically stable inverse of
tanh, 0.5 * (x.log1p() - (-x).log1p()), with log1p t = log (1 + t). -/
noncomputable def TanhBijector.atanh (x : ℝ) : ℝ :=
  0.5 * (Real.log (1 + x) - Real.log (1 + -x))

/-- TanhBijector.inverse (lines 518-528): clamp to
[-1 + eps, 1 - eps] where eps is the machine epsilon of the dtype, then
apply atanh. -/
noncomputable def TanhBijector.inverse (eps y : ℝ) : ℝ :=
  TanhBijector.atanh (clamp (-1 + eps) (1 - eps) y)

/-- TanhBijector.log_prob_correction (lines 530-532):
log (1 - tanh x ^ 2 + epsilon). -/
noncomputable def TanhBijector.log_prob_correction (epsilon x : ℝ) : ℝ :=
  Real.log (1 - Real.tanh x ^ 2 + epsilon)

/- ## StateDependentNoiseDistribution.get_std, expln branch
(lines 349-356).  The boolean mask tensors of the source become 0/1
indicator factors; the function acts elementwise on its input tensor. -/

/-- Embedding of get_std with use_expln = True (lines 349-356), acting on
one element of the log_std tensor.  below_threshold, safe_log_std and
above_threshold mirror the source lines exactly, with the comparison mask
tensors written as 0/1 indicators. -/
noncomputable def get_std_expln (epsilon x : ℝ) : ℝ :=
  let below_threshold := Real.exp x * (if x ≤ 0 then (1 : ℝ) else 0)
  let safe_log_std := x * (if 0 < x then (1 : ℝ) else 0) + epsilon
  let above_threshold := (Real.log (1 + safe_log_std) + 1) * (if 0 < x then (1 : ℝ) else 0)
  below_threshold + above_threshold

/-- Elementwise action of get_std with use_expln = True on a rank-1
log_std tensor. -/
noncomputable def get_std_expln_list (epsilon : ℝ) (log_std : List ℝ) : List ℝ :=
  log_std.map (get_std_expln epsilon)

/- ## StateDependentNoiseDistribution.get_noise (lines 434-444, C7). -/

/-- Row-vector times matrix: the product of a feature row with a noise
matrix, entry j being the dot product of the row with column j. -/
noncomputable def vec_mat_mul (v : List ℝ) (m : List (List ℝ)) : List ℝ :=
  m.transpose.map (fun col => (List.zipWith (fun a b => a * b) v col).sum)

/-- th.mm: every row of the left matrix is multiplied by the single
right matrix. -/
noncomputable def mat_mul (x w : List (List ℝ)) : List (List ℝ) :=
  x.map (fun row => vec_mat_mul row w)

/-- Embedding of get_noise (lines 434-444).  latent_sde is the batch of
feature rows, exploration_mat the single exploration matrix sampled by
sample_weights, exploration_matrices its batched variant.  The source
tests len(latent_sde) == 1 or a length mismatch with
exploration_matrices and then falls back to th.mm with the single
matrix; otherwise it uses th.bmm row by row (unsqueeze, bmm, squeeze). -/
noncomputable def get_noise (latent_sde : List (List ℝ))
    (exploration_mat : List (List ℝ))
    (exploration_matrices : List (List (List ℝ))) : List (List ℝ) :=
  if latent_sde.length = 1 ∨ latent_sde.length ≠ exploration_matrices.length then
    mat_mul latent_sde exploration_mat
  else
    List.zipWith vec_mat_mul latent_sde exploration_matrices

/- ## Entropy (lines 211-214 and 453-458, C8). -/

/-- Entropy of a one-dimensional Normal(mu, sigma) as torch computes it:
0.5 + 0.5 * log(2 * pi) + log sigma. -/
noncomputable def normal_entropy (sigma : ℝ) : ℝ :=
  0.5 + 0.5 * Real.log (2 * Real.pi) + Real.log sigma

/-- SquashedDiagGaussianDistribution.entropy (lines 211-214): always the
no-analytical-entropy marker, whatever the distribution state. -/
def squashed_entropy (_mean_actions : List (List ℝ)) (_log_std : List ℝ) :
    Option (List ℝ) := none

/-- StateDependentNoiseDistribution.entropy (lines 453-458).  The
bijector field is TanhBijector(epsilon) exactly when squash_output was
set at construction (lines 336-339); scale is the scale matrix of the
underlying Normal distribution.  Without a bijector the per-dimension
entropies are reduced by sum_independent_dims along the action axis. -/
noncomputable def sdn_entropy (squash_output : Bool) (scale : List (List ℝ)) :
    Option (List ℝ) :=
  if squash_output then none
  else some (scale.map (fun row => (row.map normal_entropy).sum))

/- ## sum_independent_dims (lines 83-96, C9).  A ragged tensor model:
rank is read off the leading axis as torch reads len(tensor.shape). -/

/-- Tensors of arbitrary rank: a scalar or a stack of subtensors. -/
inductive Tensor where
| scal (x : ℝ)
| stack (ts : List Tensor)

mutual

/-- tensor.sum(): the sum of every scalar entry. -/
noncomputable def sumAll : Tensor → ℝ
  | .scal x => x
  | .stack ts => sumAllList ts

/-- Sum of all scalar entries of a list of tensors. -/
noncomputable def sumAllList : List Tensor → ℝ
  | [] => 0
  | t :: ts => sumAll t + sumAllList ts

end

/-- len(tensor.shape): rank read along the leading axis. -/
def trank : Tensor → Nat
  | .scal _ => 0
  | .stack [] => 1
  | .stack (t :: _) => 1 + trank t

mutual

/-- Elementwise addition of equal-shaped tensors (junk on a shape
mismatch, which torch would reject). -/
noncomputable def addT : Tensor → Tensor → Tensor
  | .scal a, .scal b => .scal (a + b)
  | .stack ts1, .stack ts2 => .stack (addTList ts1 ts2)
  | t, _ => t

/-- Pointwise addT over two lists of tensors. -/
noncomputable def addTList : List Tensor → List Tensor → List Tensor
  | t1 :: ts1, t2 :: ts2 => addT t1 t2 :: addTList ts1 ts2
  | _, _ => []

end

/-- Sum of a list of equal-shaped tensors (the reduction of one axis). -/
noncomputable def listSumT : List Tensor → Tensor
  | [] => .scal 0
  | [t] => t
  | t :: t2 :: ts => addT t (listSumT (t2 :: ts))

/-- Reduce the leading axis of one subtensor. -/
noncomputable def innerSum : Tensor → Tensor
  | .stack rs => listSumT rs
  | t => t

/-- tensor.sum(axis=1): reduce axis 1, keeping axis 0. -/
noncomputable def sumAxis1 : Tensor → Tensor
  | .stack ts => .stack (ts.map innerSum)
  | t => t

/-- Embedding of sum_independent_dims (lines 83-96): tensors of rank
above 1 are summed along axis 1, anything else is summed to a scalar. -/
noncomputable def sum_independent_dims (t : Tensor) : Tensor :=
  if 1 < trank t then sumAxis1 t else .scal (sumAll t)

/-- Log-density of a one-dimensional Normal(mu, sigma) at x as torch
computes it: -(x - mu)^2 / (2 sigma^2) - log sigma - log sqrt(2 pi). -/
noncomputable def normal_log_pdf (mu sigma x : ℝ) : ℝ :=
  -((x - mu) ^ 2) / (2 * sigma ^ 2) - Real.log sigma - Real.log (Real.sqrt (2 * Real.pi))

/-- Pointwise combination of three lists (torch elementwise ops on three
equal-shaped rank-1 tensors). -/
def zipWith3 {α β γ δ : Type} (f : α → β → γ → δ) :
    List α → List β → List γ → List δ
  | a :: as2, b :: bs2, c :: cs2 => f a b c :: zipWith3 f as2 bs2 cs2
  | _, _, _ => []

/-- DiagGaussianDistribution.log_prob (lines 173-183) applied to an
unbatched rank-1 action: elementwise Normal log-densities with
std = exp(log_std) (line 139), then sum_independent_dims. -/
noncomputable def diag_log_prob_vec (mu log_std a : List ℝ) : Tensor :=
  sum_independent_dims (.stack
    ((zipWith3 (fun mi lsi ai => normal_log_pdf mi (Real.exp lsi) ai) mu log_std a).map .scal))

/-- DiagGaussianDistribution.entropy (lines 149-150) for an unbatched
rank-1 parameter set: elementwise Normal entropies with
std = exp(log_std), then sum_independent_dims. -/
noncomputable def diag_entropy_vec (log_std : List ℝ) : Tensor :=
  sum_independent_dims (.stack
    ((log_std.map (fun l => normal_entropy (Real.exp l))).map .scal))

/- ## SquashedDiagGaussianDistribution.log_prob (lines 226-240, C1). -/

/-- DiagGaussianDistribution.log_prob (lines 173-183) on a rank-2 batch:
std = exp(log_std) broadcast across the batch (line 139), elementwise
Normal log-densities, then sum_independent_dims along axis 1. -/
noncomputable def diag_gaussian_log_prob (mean_actions : List (List ℝ))
    (log_std : List ℝ) (action : List (List ℝ)) : List ℝ :=
  List.zipWith (fun mrow arow =>
      (zipWith3 (fun mi lsi ai => normal_log_pdf mi (Real.exp lsi) ai) mrow log_std arow).sum)
    mean_actions action

/-- Embedding of SquashedDiagGaussianDistribution.log_prob
(lines 226-240): when no pre-squash gaussian_action is cached it is
recovered with TanhBijector.inverse (line 233, with the float32 machine
epsilon); the base Gaussian log-density is taken at the pre-squash value
and the correction th.sum(th.log(1 - action ** 2 + epsilon), dim=1) is
subtracted (line 239) — note the correction uses the squashed action
itself, not tanh of the pre-squash value. -/
noncomputable def squashed_log_prob (mean_actions : List (List ℝ)) (log_std : List ℝ)
    (epsilon : ℝ) (action : List (List ℝ)) (gaussian_action : Option (List (List ℝ))) :
    List ℝ :=
  let ga := match gaussian_action with
    | none => action.map (List.map (TanhBijector.inverse float32_eps))
    | some g => g
  let log_prob := diag_gaussian_log_prob mean_actions log_std ga
  List.zipWith (fun lp arow =>
      lp - (arow.map (fun ai => Real.log (1 - ai ^ 2 + epsilon))).sum)
    log_prob action

/-- The log_prob formula exactly as claim C1 words it: the same base
Gaussian log-density at the pre-squash value x, but with the
change-of-variables correction written sum(log(1 - tanh(x)^2 + epsilon))
over the pre-squash values. -/
noncomputable def squashed_log_prob_spec (mean_actions : List (List ℝ)) (log_std : List ℝ)
    (epsilon : ℝ) (action : List (List ℝ)) (gaussian_action : Option (List (List ℝ))) :
    List ℝ :=
  let ga := match gaussian_action with
    | none => action.map (List.map (TanhBijector.inverse float32_eps))
    | some g => g
  let log_prob := diag_gaussian_log_prob mean_actions log_std ga
  List.zipWith (fun lp garow =>
      lp - (garow.map (fun xi => Real.log (1 - Real.tanh xi ^ 2 + epsilon))).sum)
    log_prob ga

/-- Closed form of the expln transform: the two masked summands collapse
to a two-branch conditional, with the source epsilon added inside log1p
on the positive branch. -/
lemma get_std_expln_eq (epsilon x : ℝ) :
    get_std_expln epsilon x =
      if x ≤ 0 then Real.exp x else Real.log (1 + (x + epsilon)) + 1 := by
  unfold get_std_expln
  by_cases h : x ≤ 0
  · have h2 : ¬ 0 < x := not_lt.mpr h
    simp [h, h2]
  · have h2 : 0 < x := not_le.mp h
    simp [h, h2]

/- ## Helper lemmas about the numbers and the hyperbolic functions. -/

lemma float32_eps_pos : (0 : ℝ) < float32_eps := by
  unfold float32_eps; norm_num

lemma float32_eps_lt_one : float32_eps < 1 := by
  unfold float32_eps; norm_num

lemma default_epsilon_pos : (0 : ℝ) < default_epsilon := by
  unfold default_epsilon; norm_num

lemma log_float32_eps : Real.log float32_eps = -(23 * Real.log 2) := by
  unfold float32_eps
  rw [show (1 / 8388608 : ℝ) = ((2 : ℝ) ^ (23 : ℕ))⁻¹ by norm_num,
    Real.log_inv, Real.log_pow]
  norm_num

lemma one_add_tanh (x : ℝ) : 1 + Real.tanh x = Real.exp x / Real.cosh x := by
  have hc : (0 : ℝ) < Real.cosh x := Real.cosh_pos x
  rw [Real.tanh_eq_sinh_div_cosh]
  field_simp

lemma one_sub_tanh (x : ℝ) : 1 - Real.tanh x = Real.exp (-x) / Real.cosh x := by
  have hc : (0 : ℝ) < Real.cosh x := Real.cosh_pos x
  rw [Real.tanh_eq_sinh_div_cosh]
  field_simp

/-- The stabilized atanh of the source is a left inverse of tanh. -/
lemma atanh_tanh (x : ℝ) : TanhBijector.atanh (Real.tanh x) = x := by
  have hc : (0 : ℝ) < Real.cosh x := Real.cosh_pos x
  unfold TanhBijector.atanh
  rw [show (1 : ℝ) + -Real.tanh x = 1 - Real.tanh x by ring, one_add_tanh, one_sub_tanh,
    Real.log_div (Real.exp_ne_zero x) (ne_of_gt hc),
    Real.log_div (Real.exp_ne_zero (-x)) (ne_of_gt hc), Real.log_exp, Real.log_exp]
  ring

lemma tanh_eq_exp (t : ℝ) :
    Real.tanh t = (Real.exp (2 * t) - 1) / (Real.exp (2 * t) + 1) := by
  have h2t : Real.exp (2 * t) = Real.exp t * Real.exp t := by
    rw [two_mul, Real.exp_add]
  have he : Real.exp t ≠ 0 := Real.exp_ne_zero t
  have ha : Real.exp t + Real.exp (-t) ≠ 0 := by positivity
  have hb : Real.exp t * Real.exp t + 1 ≠ 0 := by positivity
  rw [Real.tanh_eq_sinh_div_cosh, Real.sinh_eq, Real.cosh_eq, h2t, Real.exp_neg] at *
  field_simp

/-- The stabilized atanh of the source is a right inverse of tanh on the
open interval (-1, 1). -/
lemma tanh_atanh {y : ℝ} (h1 : -1 < y) (h2 : y < 1) :
    Real.tanh (TanhBijector.atanh y) = y := by
  have hy1 : (0 : ℝ) < 1 + y := by linarith
  have hy2 : (0 : ℝ) < 1 - y := by linarith
  have hexp : Real.exp (2 * TanhBijector.atanh y) = (1 + y) / (1 - y) := by
    unfold TanhBijector.atanh
    rw [show 2 * (0.5 * (Real.log (1 + y) - Real.log (1 + -y))) =
        Real.log (1 + y) - Real.log (1 + -y) by ring,
      Real.exp_sub, Real.exp_log hy1,
      Real.exp_log (show (0 : ℝ) < 1 + -y by linarith),
      show (1 : ℝ) + -y = 1 - y by ring]
  rw [tanh_eq_exp, hexp]
  have hden : (1 + y) / (1 - y) + 1 ≠ 0 := by positivity
  field_simp
  ring

/- ## Claims about get_std with use_expln (C2, C3). -/

/-- Counterexample to claim C2 as stated: at log_std = 1 (with the
default epsilon 1e-6) the source computes log1p(log_std + epsilon) + 1,
which differs from the log1p(log_std) + 1 of the spec because the source
adds its epsilon inside log1p on the positive branch. -/
theorem get_std_expln_spec_cex :
    get_std_expln default_epsilon 1 ≠ Real.log (1 + 1) + 1 := by
  have h : Real.log (1 + 1) < Real.log (1 + (1 + default_epsilon)) := by
    apply Real.log_lt_log (by norm_num)
    have := default_epsilon_pos
    linarith
  rw [get_std_expln_eq, if_neg (by norm_num)]
  intro hEq
  linarith

/-- Claim C2 (corrected): with use_expln = True, get_std acts elementwise
and returns exp(log_std) where log_std is nonpositive and
log1p(log_std + epsilon) + 1 where log_std is positive; the source adds
its epsilon inside log1p, so the spec formula log1p(log_std) + 1 holds
only up to that epsilon shift. -/
theorem get_std_expln_piecewise :
    (∀ epsilon x : ℝ, get_std_expln epsilon x =
        if x ≤ 0 then Real.exp x else Real.log (1 + (x + epsilon)) + 1) ∧
    (∀ (epsilon : ℝ) (log_std : List ℝ), get_std_expln_list epsilon log_std =
        log_std.map
          (fun x => if x ≤ 0 then Real.exp x else Real.log (1 + (x + epsilon)) + 1)) := by
  refine ⟨get_std_expln_eq, fun epsilon log_std => ?_⟩
  unfold get_std_expln_list
  exact List.map_congr_left (fun x _ => get_std_expln_eq epsilon x)

lemma get_std_expln_at_zero : get_std_expln default_epsilon 0 = 1 := by
  rw [get_std_expln_eq, if_pos le_rfl, Real.exp_zero]

/-- From the right of 0, the expln transform tends to
log(1 + epsilon) + 1, not to its value 1 at 0. -/
lemma get_std_expln_tendsto_right :
    Filter.Tendsto (get_std_expln default_epsilon) (nhdsWithin 0 (Set.Ioi 0))
      (nhds (Real.log (1 + default_epsilon) + 1)) := by
  have heps := default_epsilon_pos
  have hinner : ContinuousAt (fun x : ℝ => 1 + (x + default_epsilon)) 0 :=
    (continuousAt_const.add (continuousAt_id.add continuousAt_const))
  have hne : (1 : ℝ) + (0 + default_epsilon) ≠ 0 := ne_of_gt (by linarith)
  have hG : ContinuousAt (fun x : ℝ => Real.log (1 + (x + default_epsilon)) + 1) 0 :=
    (ContinuousAt.log hinner hne).add continuousAt_const
  have hGlim : Filter.Tendsto (fun x : ℝ => Real.log (1 + (x + default_epsilon)) + 1)
      (nhdsWithin 0 (Set.Ioi 0)) (nhds (Real.log (1 + default_epsilon) + 1)) := by
    have := hG.continuousWithinAt (s := Set.Ioi 0)
    unfold ContinuousWithinAt at this
    simpa using this
  refine hGlim.congr' ?_
  filter_upwards [eventually_mem_nhdsWithin] with x hx
  rw [get_std_expln_eq, if_neg (not_le.mpr hx)]

/-- Counterexample to claim C3 as stated: the expln transform is not
continuous at 0, because the epsilon added inside log1p makes the right
limit log(1 + epsilon) + 1 differ from the value 1 at 0 (a jump of
log(1 + 1e-6)). -/
theorem get_std_expln_claim_cex :
    ¬ ((∀ x : ℝ, 0 < get_std_expln default_epsilon x) ∧
       ContinuousAt (get_std_expln default_epsilon) 0) := by
  rintro ⟨-, hcont⟩
  have hlim : Filter.Tendsto (get_std_expln default_epsilon)
      (nhdsWithin 0 (Set.Ioi 0)) (nhds 1) := by
    have := hcont.continuousWithinAt (s := Set.Ioi 0)
    unfold ContinuousWithinAt at this
    rwa [get_std_expln_at_zero] at this
  have huniq := tendsto_nhds_unique hlim get_std_expln_tendsto_right
  have hpos : 0 < Real.log (1 + default_epsilon) := by
    apply Real.log_pos
    have := default_epsilon_pos
    linarith
  linarith

/-- Claim C3 (corrected): the expln transform is strictly positive for
every real log_std; at 0 its value is 1 and it is left-continuous, but
its right limit is log(1 + epsilon) + 1 ≠ 1, so continuity at 0 fails by
a jump of log(1 + epsilon). -/
theorem get_std_expln_positive_and_jump :
    (∀ x : ℝ, 0 < get_std_expln default_epsilon x) ∧
    get_std_expln default_epsilon 0 = 1 ∧
    Filter.Tendsto (get_std_expln default_epsilon) (nhdsWithin 0 (Set.Iic 0))
      (nhds 1) ∧
    Filter.Tendsto (get_std_expln default_epsilon) (nhdsWithin 0 (Set.Ioi 0))
      (nhds (Real.log (1 + default_epsilon) + 1)) ∧
    Real.log (1 + default_epsilon) + 1 ≠ 1 := by
  have heps := default_epsilon_pos
  refine ⟨?_, get_std_expln_at_zero, ?_, get_std_expln_tendsto_right, ?_⟩
  · intro x
    rw [get_std_expln_eq]
    split_ifs with h
    · exact Real.exp_pos x
    · have hx : 0 < x := not_le.mp h
      have hlog : 0 < Real.log (1 + (x + default_epsilon)) := by
        apply Real.log_pos
        linarith
      linarith
  · have hexp : Filter.Tendsto (fun x : ℝ => Real.exp x)
        (nhdsWithin 0 (Set.Iic 0)) (nhds 1) := by
      have := Real.continuous_exp.continuousAt (x := (0 : ℝ))
      have h2 := this.continuousWithinAt (s := Set.Iic 0)
      unfold ContinuousWithinAt at h2
      rwa [Real.exp_zero] at h2
    refine hexp.congr' ?_
    filter_upwards [eventually_mem_nhdsWithin] with x hx
    have hx2 : x ≤ 0 := hx
    rw [get_std_expln_eq, if_pos hx2]
  · have hpos : 0 < Real.log (1 + default_epsilon) := by
      apply Real.log_pos
      linarith
    linarith

/- ## Claims about TanhBijector (C4, C5). -/

lemma clamp_le {lo hi x : ℝ} (h : lo ≤ hi) : clamp lo hi x ≤ hi := by
  unfold clamp
  exact max_le h (min_le_right x hi)

lemma le_clamp (lo hi x : ℝ) : lo ≤ clamp lo hi x := le_max_left lo _

/-- Claim C4: TanhBijector.inverse is the stabilized atanh of the clamped
input: it equals 0.5 * (log1p y2 - log1p (-y2)) with y2 the input clamped
to [-1 + eps, 1 - eps] (eps the float32 machine epsilon); tanh maps the
result back to exactly the clamped input; and on [-1, 1] the result is
finite, bounded by 9 in absolute value. -/
theorem tanh_bijector_inverse_stable :
    (∀ y : ℝ, TanhBijector.inverse float32_eps y =
      0.5 * (Real.log (1 + clamp (-1 + float32_eps) (1 - float32_eps) y)
           - Real.log (1 - clamp (-1 + float32_eps) (1 - float32_eps) y))) ∧
    (∀ y : ℝ, Real.tanh (TanhBijector.inverse float32_eps y) =
      clamp (-1 + float32_eps) (1 - float32_eps) y) ∧
    (∀ y : ℝ, -1 ≤ y → y ≤ 1 → |TanhBijector.inverse float32_eps y| ≤ 9) := by
  have he := float32_eps_pos
  have he1 := float32_eps_lt_one
  have hlohi : -1 + float32_eps ≤ 1 - float32_eps := by linarith
  have hbounds : ∀ y : ℝ, -1 + float32_eps ≤ clamp (-1 + float32_eps) (1 - float32_eps) y ∧
      clamp (-1 + float32_eps) (1 - float32_eps) y ≤ 1 - float32_eps :=
    fun y => ⟨le_clamp _ _ y, clamp_le hlohi⟩
  refine ⟨?_, ?_, ?_⟩
  · intro y
    unfold TanhBijector.inverse TanhBijector.atanh
    rw [show (1 : ℝ) + -clamp (-1 + float32_eps) (1 - float32_eps) y =
        1 - clamp (-1 + float32_eps) (1 - float32_eps) y by ring]
  · intro y
    obtain ⟨hlo, hhi⟩ := hbounds y
    unfold TanhBijector.inverse
    exact tanh_atanh (by linarith) (by linarith)
  · intro y _ _
    obtain ⟨hlo, hhi⟩ := hbounds y
    set c := clamp (-1 + float32_eps) (1 - float32_eps) y with hc
    have h1c : float32_eps ≤ 1 + c := by linarith
    have h1c2 : 1 + c ≤ 2 := by linarith
    have h2c : float32_eps ≤ 1 - c := by linarith
    have h2c2 : 1 - c ≤ 2 := by linarith
    have hA1 : Real.log (1 + c) ≤ Real.log 2 :=
      Real.log_le_log (by linarith) h1c2
    have hA2 : Real.log float32_eps ≤ Real.log (1 + c) :=
      Real.log_le_log he h1c
    have hB1 : Real.log (1 - c) ≤ Real.log 2 :=
      Real.log_le_log (by linarith) h2c2
    have hB2 : Real.log float32_eps ≤ Real.log (1 - c) :=
      Real.log_le_log he h2c
    have hlog2 := Real.log_two_lt_d9
    have hlog2pos := Real.log_pos (by norm_num : (1 : ℝ) < 2)
    have hloge := log_float32_eps
    unfold TanhBijector.inverse TanhBijector.atanh
    rw [show (1 : ℝ) + -c = 1 - c by ring, ← hc]
    rw [abs_le]
    constructor <;> nlinarith

/-- Witness for claim C4 at the concrete input y = 0. -/
theorem tanh_bijector_inverse_stable_witness :
    |TanhBijector.inverse float32_eps 0| ≤ 9 :=
  tanh_bijector_inverse_stable.2.2 0 (by norm_num) (by norm_num)

/-- Counterexample to claim C5 as stated: x = 9 is within the band
|x| < 10 that the spec declares safe, yet the round trip
inverse(forward(9)) is clamped to atanh(1 - eps) < 8.4, an error larger
than 1/2 (far beyond any epsilon-sized bound). -/
theorem tanh_roundtrip_cex :
    |(9 : ℝ)| < 10 ∧
    1 / 2 < |TanhBijector.inverse float32_eps (TanhBijector.forward 9) - 9| := by
  have he := float32_eps_pos
  have he1 := float32_eps_lt_one
  constructor
  · rw [abs_of_nonneg (by norm_num : (0:ℝ) ≤ 9)]
    norm_num
  · have hexp18 : (16777216 : ℝ) < Real.exp 9 * Real.exp 9 := by
      have h1 : (2.7 : ℝ) < Real.exp 1 := lt_trans (by norm_num) Real.exp_one_gt_d9
      have h2 : ((2.7 : ℝ) ^ (9 : ℕ)) ≤ (Real.exp 1) ^ (9 : ℕ) :=
        pow_le_pow_left₀ (by norm_num) (le_of_lt h1) 9
      have h3 : Real.exp 9 = (Real.exp 1) ^ (9 : ℕ) := by
        rw [← Real.exp_nat_mul]
        norm_num
      have h4 : (4096 : ℝ) < (2.7 : ℝ) ^ (9 : ℕ) := by norm_num
      have h5 : (4096 : ℝ) < Real.exp 9 := by
        rw [h3]
        linarith
      nlinarith
    have htanh : 1 - float32_eps ≤ Real.tanh 9 := by
      have hc : Real.exp 9 / 2 ≤ Real.cosh 9 := by
        rw [Real.cosh_eq]
        have := Real.exp_pos (-(9 : ℝ))
        linarith
      have hcpos : (0 : ℝ) < Real.cosh 9 := Real.cosh_pos 9
      have hsub := one_sub_tanh 9
      have hkey : Real.exp (-9 : ℝ) / Real.cosh 9 ≤ float32_eps := by
        rw [div_le_iff₀ hcpos, Real.exp_neg]
        have hstep : (Real.exp 9)⁻¹ ≤ float32_eps * (Real.exp 9 / 2) := by
          rw [inv_le_iff_one_le_mul₀ (Real.exp_pos 9)]
          unfold float32_eps
          nlinarith [Real.exp_pos (9 : ℝ)]
        have hstep2 : float32_eps * (Real.exp 9 / 2) ≤ float32_eps * Real.cosh 9 :=
          mul_le_mul_of_nonneg_left hc (le_of_lt he)
        linarith
      linarith
    have hclamp : clamp (-1 + float32_eps) (1 - float32_eps) (Real.tanh 9)
        = 1 - float32_eps := by
      unfold clamp
      rw [min_eq_right htanh, max_eq_right (by linarith)]
    have hval : TanhBijector.inverse float32_eps (TanhBijector.forward 9) =
        0.5 * (Real.log (1 + (1 - float32_eps)) - Real.log float32_eps) := by
      unfold TanhBijector.inverse TanhBijector.forward TanhBijector.atanh
      rw [hclamp, show (1 : ℝ) + -(1 - float32_eps) = float32_eps by ring]
    have hlogA : Real.log (1 + (1 - float32_eps)) ≤ Real.log 2 :=
      Real.log_le_log (by linarith) (by linarith)
    have hlog2 := Real.log_two_lt_d9
    have hloge := log_float32_eps
    have hsmall : TanhBijector.inverse float32_eps (TanhBijector.forward 9) ≤ 17 / 2 := by
      rw [hval, hloge]
      nlinarith
    have habs : (9 : ℝ) - TanhBijector.inverse float32_eps (TanhBijector.forward 9) ≤
        |TanhBijector.inverse float32_eps (TanhBijector.forward 9) - 9| := by
      rw [abs_sub_comm]
      exact le_abs_self _
    linarith

/-- Claim C5 (corrected): the round trip inverse(forward(x)) is exactly x
whenever |tanh x| ≤ 1 - eps (eps the float32 machine epsilon), i.e. for
|x| up to atanh(1 - eps) ≈ 8.3; beyond that the clamp truncates the
result, so the spec bound |x| < ~10 is too generous. -/
theorem tanh_roundtrip (x : ℝ) (h : |Real.tanh x| ≤ 1 - float32_eps) :
    TanhBijector.inverse float32_eps (TanhBijector.forward x) = x := by
  have hb := abs_le.mp h
  unfold TanhBijector.inverse TanhBijector.forward
  have hcl : clamp (-1 + float32_eps) (1 - float32_eps) (Real.tanh x) = Real.tanh x := by
    unfold clamp
    rw [min_eq_left hb.2, max_eq_right (by linarith [hb.1])]
  rw [hcl, atanh_tanh]

/-- Witness for the corrected claim C5 at the concrete input x = 0. -/
theorem tanh_roundtrip_witness :
    TanhBijector.inverse float32_eps (TanhBijector.forward 0) = 0 :=
  tanh_roundtrip 0 (by
    rw [Real.tanh_zero, abs_zero]
    unfold float32_eps
    norm_num)

/- ## Claims about the factory dispatch (C6, C10). -/

/-- Claim C6: the factory yields StateDependentNoiseDistribution for a
1-D box with use_sde, DiagGaussianDistribution for a 1-D box without,
CategoricalDistribution for a discrete space, the unsupported-shape
failure for a box whose rank is not 1, and the unsupported-action-space
failure for every other variant. -/
theorem make_proba_distribution_dispatch :
    (∀ n : Nat, make_proba_distribution (.box [n]) true =
      .ok (.stateDependentNoise n)) ∧
    (∀ n : Nat, make_proba_distribution (.box [n]) false =
      .ok (.diagGaussian n)) ∧
    (∀ (shape : List Nat) (use_sde : Bool), shape.length ≠ 1 →
      make_proba_distribution (.box shape) use_sde = .error .unsupportedShape) ∧
    (∀ (n : Nat) (use_sde : Bool), make_proba_distribution (.discrete n) use_sde =
      .ok (.categorical n)) ∧
    (∀ (nvec : List Nat) (use_sde : Bool),
      make_proba_distribution (.multiDiscrete nvec) use_sde =
        .error .unsupportedActionSpace) ∧
    (∀ (n : Nat) (use_sde : Bool), make_proba_distribution (.multiBinary n) use_sde =
      .error .unsupportedActionSpace) := by
  refine ⟨?_, ?_, ?_, ?_, ?_, ?_⟩
  · intro n
    simp [make_proba_distribution, get_action_dim]
  · intro n
    simp [make_proba_distribution, get_action_dim]
  · intro shape use_sde h
    simp [make_proba_distribution, h]
  · intro n use_sde
    rfl
  · intro nvec use_sde
    rfl
  · intro n use_sde
    rfl

/-- Witness for claim C6: a 2-D image-shaped box fails with the
unsupported-shape error. -/
theorem make_proba_distribution_dispatch_witness :
    make_proba_distribution (.box [3, 4]) false = .error .unsupportedShape :=
  make_proba_distribution_dispatch.2.2.1 [3, 4] false (by decide)

/-- Claim C10: for a discrete space the factory returns the categorical
distribution whatever the value of use_sde; the flag is silently ignored
rather than rejected. -/
theorem make_proba_distribution_discrete_ignores_sde :
    ∀ (n : Nat) (sde1 sde2 : Bool),
      make_proba_distribution (.discrete n) sde1 =
        make_proba_distribution (.discrete n) sde2 ∧
      make_proba_distribution (.discrete n) sde1 = .ok (.categorical n) := by
  intro n sde1 sde2
  exact ⟨rfl, rfl⟩

lemma getElem?_zipWith {α β γ : Type} (f : α → β → γ) :
    ∀ (l1 : List α) (l2 : List β) (i : Nat) (a : α) (b : β),
      l1[i]? = some a → l2[i]? = some b →
      (List.zipWith f l1 l2)[i]? = some (f a b) := by
  intro l1
  induction l1 with
  | nil => intro l2 i a b h1 _; simp at h1
  | cons x xs ih =>
    intro l2 i a b h1 h2
    cases l2 with
    | nil => simp at h2
    | cons y ys =>
      cases i with
      | zero =>
        simp at h1 h2
        simp [h1, h2]
      | succ j =>
        simp at h1 h2
        simpa using ih ys j a b h1 h2

/-- Claim C7: when the batch has exactly one row or its length differs
from the number of per-sample exploration matrices, get_noise multiplies
every row by the single shared exploration matrix; otherwise row i of the
output is the product of feature row i with exploration matrix i. -/
theorem get_noise_characterization :
    (∀ (latent_sde : List (List ℝ)) (exploration_mat : List (List ℝ))
       (exploration_matrices : List (List (List ℝ))),
      (latent_sde.length = 1 ∨ latent_sde.length ≠ exploration_matrices.length) →
      get_noise latent_sde exploration_mat exploration_matrices =
        latent_sde.map (fun row => vec_mat_mul row exploration_mat)) ∧
    (∀ (latent_sde : List (List ℝ)) (exploration_mat : List (List ℝ))
       (exploration_matrices : List (List (List ℝ))),
      latent_sde.length ≠ 1 → latent_sde.length = exploration_matrices.length →
      ∀ (i : Nat) (row : List ℝ) (m : List (List ℝ)),
        latent_sde[i]? = some row → exploration_matrices[i]? = some m →
        (get_noise latent_sde exploration_mat exploration_matrices)[i]? =
          some (vec_mat_mul row m)) := by
  constructor
  · intro latent_sde exploration_mat exploration_matrices h
    rw [get_noise, if_pos h]
    rfl
  · intro latent_sde exploration_mat exploration_matrices h1 h2 i row m hrow hm
    rw [get_noise, if_neg (by push_neg; exact ⟨h1, h2⟩)]
    exact getElem?_zipWith vec_mat_mul latent_sde exploration_matrices i row m hrow hm

/-- Witness for claim C7: a two-row batch matching two exploration
matrices takes the per-sample branch, and a one-row batch takes the
shared-matrix branch. -/
theorem get_noise_characterization_witness :
    (get_noise [[(1 : ℝ), 0], [0, 1]] [[1], [1]] [[[2], [3]], [[4], [5]]])[0]? =
      some (vec_mat_mul [(1 : ℝ), 0] [[(2 : ℝ)], [3]]) ∧
    get_noise [[(1 : ℝ), 2]] [[1], [1]] [] =
      [[(1 : ℝ), 2]].map (fun row => vec_mat_mul row [[(1 : ℝ)], [1]]) := by
  constructor
  · exact get_noise_characterization.2 [[(1 : ℝ), 0], [0, 1]] [[1], [1]]
      [[[2], [3]], [[4], [5]]] (by decide) (by decide) 0 [(1 : ℝ), 0] [[(2 : ℝ)], [3]]
      rfl rfl
  · exact get_noise_characterization.1 [[(1 : ℝ), 2]] [[(1 : ℝ)], [1]] []
      (Or.inl rfl)

/-- Claim C8: entropy returns the no-analytical-entropy marker exactly
when tanh squashing is active — always for the squashed Gaussian, and
for the SDE distribution exactly when a bijector is attached; otherwise
the summed per-dimension Gaussian entropy is returned. -/
theorem entropy_none_iff_squashed :
    (∀ (mean_actions : List (List ℝ)) (log_std : List ℝ),
      squashed_entropy mean_actions log_std = none) ∧
    (∀ (squash_output : Bool) (scale : List (List ℝ)),
      (sdn_entropy squash_output scale = none ↔ squash_output = true)) ∧
    (∀ scale : List (List ℝ), sdn_entropy false scale =
      some (scale.map (fun row => (row.map normal_entropy).sum))) := by
  refine ⟨fun _ _ => rfl, fun b scale => ?_, fun scale => rfl⟩
  cases b <;> simp [sdn_entropy]

lemma sumAll_stack_scal (v : List ℝ) :
    sumAll (.stack (v.map .scal)) = v.sum := by
  induction v with
  | nil => simp [sumAll, sumAllList]
  | cons x xs ih =>
    simp only [List.map_cons, List.sum_cons, sumAll, sumAllList] at *
    rw [ih]

lemma trank_stack_scal (v : List ℝ) : trank (.stack (v.map .scal)) = 1 := by
  cases v <;> simp [trank]

lemma listSumT_scal (r : List ℝ) : listSumT (r.map .scal) = .scal r.sum := by
  induction r with
  | nil => simp [listSumT]
  | cons x xs ih =>
    cases xs with
    | nil => simp [listSumT]
    | cons y ys =>
      simp only [List.map_cons] at *
      rw [listSumT, ih, addT]
      simp

/-- Rank-1 reduction of sum_independent_dims to a scalar. -/
lemma sum_independent_dims_vec (v : List ℝ) :
    sum_independent_dims (.stack (v.map .scal)) = .scal v.sum := by
  unfold sum_independent_dims
  rw [trank_stack_scal, if_neg (by norm_num), sumAll_stack_scal]

/-- Claim C9: sum_independent_dims collapses a rank-1 tensor to the
scalar sum of its entries, sums a rank-2 tensor only along axis 1, and
in general keeps axis 0 whenever the rank exceeds 1; consequently the
diagonal-Gaussian log_prob and entropy of an unbatched rank-1 input are
single scalars, not per-batch vectors. -/
theorem sum_independent_dims_rank_cases :
    (∀ v : List ℝ, sum_independent_dims (.stack (v.map .scal)) = .scal v.sum) ∧
    (∀ m : List (List ℝ), m ≠ [] →
      sum_independent_dims (.stack (m.map (fun r => .stack (r.map .scal)))) =
        .stack (m.map (fun r => .scal r.sum))) ∧
    (∀ t : Tensor, 1 < trank t → sum_independent_dims t = sumAxis1 t) ∧
    (∀ mu log_std a : List ℝ, diag_log_prob_vec mu log_std a =
      .scal (zipWith3 (fun mi lsi ai => normal_log_pdf mi (Real.exp lsi) ai) mu log_std a).sum) ∧
    (∀ log_std : List ℝ, diag_entropy_vec log_std =
      .scal (log_std.map (fun l => normal_entropy (Real.exp l))).sum) := by
  refine ⟨sum_independent_dims_vec, ?_, ?_, ?_, ?_⟩
  · intro m hm
    obtain ⟨r0, rest, rfl⟩ := List.exists_cons_of_ne_nil hm
    have hrank : trank (.stack ((r0 :: rest).map (fun r => Tensor.stack (r.map .scal)))) = 2 := by
      simp only [List.map_cons, trank, trank_stack_scal]
    unfold sum_independent_dims
    rw [hrank, if_pos (by norm_num)]
    show Tensor.stack
        (((r0 :: rest).map (fun r => Tensor.stack (r.map .scal))).map innerSum) = _
    rw [List.map_map]
    apply congrArg
    apply List.map_congr_left
    intro r _
    show innerSum (.stack (r.map .scal)) = .scal r.sum
    rw [innerSum, listSumT_scal]
  · intro t ht
    unfold sum_independent_dims
    rw [if_pos ht]
  · intro mu log_std a
    exact sum_independent_dims_vec _
  · intro log_std
    exact sum_independent_dims_vec _

/-- Witness for claim C9: the rank-2 case at a concrete 1 x 2 matrix and
the general axis-1 case at a concrete rank-2 tensor. -/
theorem sum_independent_dims_rank_cases_witness :
    sum_independent_dims (.stack ([[(1 : ℝ), 2]].map (fun r => .stack (r.map .scal)))) =
      .stack ([[(1 : ℝ), 2]].map (fun r => .scal r.sum)) ∧
    sum_independent_dims (.stack [.stack [.scal (5 : ℝ)]]) =
      sumAxis1 (.stack [.stack [.scal (5 : ℝ)]]) :=
  ⟨sum_independent_dims_rank_cases.2.1 [[(1 : ℝ), 2]] (by simp),
   sum_independent_dims_rank_cases.2.2.1 (.stack [.stack [.scal (5 : ℝ)]])
     (by norm_num [trank])⟩

/-- tanh undoes the stabilized inverse exactly on inputs that the clamp
leaves untouched. -/
lemma tanh_inverse_of_abs_le {y : ℝ} (h : |y| ≤ 1 - float32_eps) :
    Real.tanh (TanhBijector.inverse float32_eps y) = y := by
  have hb := abs_le.mp h
  have he := float32_eps_pos
  unfold TanhBijector.inverse
  have hcl : clamp (-1 + float32_eps) (1 - float32_eps) y = y := by
    unfold clamp
    rw [min_eq_left hb.2, max_eq_right (by linarith [hb.1])]
  rw [hcl]
  exact tanh_atanh (by linarith [hb.1]) (by linarith [hb.2])

lemma zipWith_sub_congr {f g : List ℝ → ℝ} :
    ∀ (lp : List ℝ) (a : List (List ℝ)), (∀ row ∈ a, f row = g row) →
      List.zipWith (fun l r => l - f r) lp a =
        List.zipWith (fun l r => l - g r) lp a := by
  intro lp a
  induction a generalizing lp with
  | nil => intro _; simp
  | cons r rs ih =>
    intro h
    cases lp with
    | nil => simp
    | cons l ls =>
      simp only [List.zipWith_cons_cons]
      rw [h r (by simp), ih ls (fun row hrow => h row (by simp [hrow]))]

/-- Counterexample to claim C1 as stated: with a cached pre-squash value
x = 0 and action a = 1/2, the source subtracts log(1 - a^2 + epsilon)
computed from the squashed action (line 239), while the claim formula
subtracts log(1 - tanh(x)^2 + epsilon) computed from the pre-squash
value; the two differ, so log_prob is not the claimed expression. -/
theorem squashed_log_prob_spec_cex :
    squashed_log_prob [[0]] [0] default_epsilon [[1 / 2]] (some [[0]]) ≠
      squashed_log_prob_spec [[0]] [0] default_epsilon [[1 / 2]] (some [[0]]) := by
  have hlt : Real.log (1 - (1 / 2 : ℝ) ^ 2 + default_epsilon) <
      Real.log (1 - Real.tanh 0 ^ 2 + default_epsilon) := by
    rw [Real.tanh_zero]
    apply Real.log_lt_log
    · have := default_epsilon_pos
      norm_num
      linarith
    · norm_num
  intro h
  simp only [squashed_log_prob, squashed_log_prob_spec, diag_gaussian_log_prob, zipWith3,
    List.zipWith_cons_cons, List.zipWith_nil_right, List.map_cons, List.map_nil,
    List.sum_cons, List.sum_nil, List.cons.injEq, and_true] at h
  have h2 : Real.log (1 - (1 / 2 : ℝ) ^ 2 + default_epsilon) =
      Real.log (1 - Real.tanh 0 ^ 2 + default_epsilon) := by linarith
  linarith

/-- Claim C1 (corrected): log_prob uses the cached pre-squash value when
one is supplied and otherwise recovers it with the stabilized inverse;
the base Gaussian log-density is taken at that value and summed over
action dimensions, but the subtracted change-of-variables correction is
sum(log(1 - a^2 + epsilon)) over the squashed action a itself.  This
coincides with the claimed sum(log(1 - tanh(x)^2 + epsilon)) in the
no-cache case whenever every action entry has |a| <= 1 - eps, because
there tanh(inverse(a)) = a. -/
theorem squashed_log_prob_characterization :
    (∀ (mean_actions : List (List ℝ)) (log_std : List ℝ) (epsilon : ℝ)
       (action gaussian_action : List (List ℝ)),
      squashed_log_prob mean_actions log_std epsilon action (some gaussian_action) =
        List.zipWith (fun lp arow =>
            lp - (arow.map (fun ai => Real.log (1 - ai ^ 2 + epsilon))).sum)
          (diag_gaussian_log_prob mean_actions log_std gaussian_action) action) ∧
    (∀ (mean_actions : List (List ℝ)) (log_std : List ℝ) (epsilon : ℝ)
       (action : List (List ℝ)),
      squashed_log_prob mean_actions log_std epsilon action none =
        squashed_log_prob mean_actions log_std epsilon action
          (some (action.map (List.map (TanhBijector.inverse float32_eps))))) ∧
    (∀ (mean_actions : List (List ℝ)) (log_std : List ℝ) (epsilon : ℝ)
       (action : List (List ℝ)),
      (∀ row ∈ action, ∀ y ∈ row, |y| ≤ 1 - float32_eps) →
      squashed_log_prob mean_actions log_std epsilon action none =
        squashed_log_prob_spec mean_actions log_std epsilon action none) := by
  refine ⟨fun _ _ _ _ _ => rfl, fun _ _ _ _ => rfl, ?_⟩
  intro mean_actions log_std epsilon action h
  simp only [squashed_log_prob, squashed_log_prob_spec]
  rw [List.zipWith_map_right]
  apply zipWith_sub_congr
  intro row hrow
  rw [List.map_map]
  apply congrArg List.sum
  apply List.map_congr_left
  intro y hy
  show Real.log (1 - y ^ 2 + epsilon) =
    Real.log (1 - Real.tanh (TanhBijector.inverse float32_eps y) ^ 2 + epsilon)
  rw [tanh_inverse_of_abs_le (h row hrow y hy)]

/-- Witness for the corrected claim C1 at a concrete unclamped input. -/
theorem squashed_log_prob_characterization_witness :
    squashed_log_prob [[(0 : ℝ)]] [0] default_epsilon [[0]] none =
      squashed_log_prob_spec [[(0 : ℝ)]] [0] default_epsilon [[0]] none :=
  squashed_log_prob_characterization.2.2 [[0]] [0] default_epsilon [[0]] (by
    intro row hrow y hy
    simp only [List.mem_singleton] at hrow
    subst hrow
    simp only [List.mem_singleton] at hy
    subst hy
    rw [abs_zero]
    unfold float32_eps
    norm_num)

end TB
